import Mathlib

/-!
Verification of the email-classification system's duplicate-detection core,
classification orchestration, API-key pool and upload-form response handling.

The repository ships the web client (TypeScript, under src/code) and the
backend's README; the backend Python package (app/services, app/core) is not
part of the checked-in sources, so the duplicate detector, cache, key pool and
orchestrator are modelled here from the specification's own algorithm
descriptions, over exact rational arithmetic.  Times are measured in hours,
represented as rationals.
-/

/-- Modelled from the spec: the Duplicate Detection configuration surface with
the README's defaults (duplicate_cache_days 14, duplicate_cache_size 10000,
semantic_threshold 0.8, metadata_weight 0.25, subject_weight 0.45,
content_weight 0.9, time_window_hours 72). -/
structure DetectorConfig where
  duplicateCacheDays : ℚ
  duplicateCacheSize : Nat
  semanticThreshold : ℚ
  metadataWeight : ℚ
  subjectWeight : ℚ
  contentWeight : ℚ
  timeWindowHours : ℚ
deriving DecidableEq

/-- The README's default configuration values. -/
def defaultConfig : DetectorConfig :=
  ⟨14, 10000, 4/5, 1/4, 9/20, 9/10, 72⟩

/-- Modelled from the spec: a normalized email handed to the core by the
external EmailProcessor.  Subject and body are post-extraction normalized
plain text, represented as token sequences; `receivedAt` is in hours. -/
structure NormalizedEmail where
  sender : String
  recipient : Option String
  threadId : Option String
  messageId : String
  inReplyTo : List String
  references : List String
  sourceIp : Option String
  subjectTokens : List String
  bodyTokens : List String
  receivedAt : ℚ
deriving DecidableEq

/-- Modelled from the spec: one cached entry per classified email, owned by
the DuplicateCache; `id` is generated at insertion and
`classificationSnapshot` carries the text surfaced as a duplicate reason. -/
structure ProcessedEmailRecord where
  id : Nat
  email : NormalizedEmail
  classificationSnapshot : String
deriving DecidableEq

/-- Modelled from the spec: a strong metadata signal — identical `threadId`,
or the candidate's `inReplyTo`/`references` chain containing the cached
record's `messageId` — which short-circuits the metadata score to 1. -/
def strongMetadataSignal (cand rec : NormalizedEmail) : Bool :=
  (match cand.threadId, rec.threadId with
   | some a, some b => a == b
   | _, _ => false)
  || (cand.inReplyTo ++ cand.references).contains rec.messageId

/-- Two optional metadata fields match when both are present and equal. -/
def optionMatch (a b : Option String) : Bool :=
  match a, b with
  | some x, some y => x == y
  | _, _ => false

/-- Modelled from the spec: the metadata score m ∈ [0,1] of SimilarityScorer —
weighted exact matches across sender, recipient and sourceIp, with any one
strong signal short-circuiting to 1.  The spec fixes the short-circuit and the
range but not the individual weights; they are modelled as 1/2 for the sender
and 1/4 each for recipient and source IP. -/
def metadataScore (cand rec : NormalizedEmail) : ℚ :=
  if strongMetadataSignal cand rec then 1
  else
    (if cand.sender == rec.sender then (1 : ℚ)/2 else 0)
    + (if optionMatch cand.recipient rec.recipient then (1 : ℚ)/4 else 0)
    + (if optionMatch cand.sourceIp rec.sourceIp then (1 : ℚ)/4 else 0)

/-- Modelled from the spec: normalized token-overlap similarity of two token
sequences (the spec's lexical similarity measure), special-casing empty
content to 0 rather than an undefined comparison of zero vectors. -/
def overlapSim (ta tb : List String) : ℚ :=
  if ta = [] ∨ tb = [] then 0
  else ((ta.filter (fun t => decide (t ∈ tb))).length : ℚ)
    / ((max ta.length tb.length : Nat) : ℚ)

/-- Modelled from the spec: the content score c of SimilarityScorer —
subject and body similarity blended with weights `subjectWeight` and
`contentWeight`, normalized so the weights sum to 1 internally. -/
def contentScore (cfg : DetectorConfig) (cand rec : NormalizedEmail) : ℚ :=
  (cfg.subjectWeight * overlapSim cand.subjectTokens rec.subjectTokens
    + cfg.contentWeight * overlapSim cand.bodyTokens rec.bodyTokens)
    / (cfg.subjectWeight + cfg.contentWeight)

/-- Absolute time difference of two emails, in hours. -/
def deltaHours (cand rec : NormalizedEmail) : ℚ :=
  |cand.receivedAt - rec.receivedAt|

/-- Modelled from the spec: the time-proximity factor
τ = max(0, 1 − Δt / timeWindowHours). -/
def timeProximity (cfg : DetectorConfig) (cand rec : NormalizedEmail) : ℚ :=
  max 0 (1 - deltaHours cand rec / cfg.timeWindowHours)

/-- Modelled from the spec: the undecayed fused score
metadataWeight·m + (1 − metadataWeight)·c. -/
def undecayedScore (cfg : DetectorConfig) (cand rec : NormalizedEmail) : ℚ :=
  cfg.metadataWeight * metadataScore cand rec
    + (1 - cfg.metadataWeight) * contentScore cfg cand rec

/-- Modelled from the spec: the decayed similarity score
score · (0.5 + 0.5·τ) of SimilarityScorer. -/
def similarityScore (cfg : DetectorConfig) (cand rec : NormalizedEmail) : ℚ :=
  undecayedScore cfg cand rec * (1/2 + 1/2 * timeProximity cfg cand rec)

/-- Modelled from the spec: the final per-pair duplicate score, with the hard
time-window cutoff — a pair separated by more than `timeWindowHours` is
excluded from consideration entirely and contributes 0. -/
def finalScore (cfg : DetectorConfig) (cand rec : NormalizedEmail) : ℚ :=
  if cfg.timeWindowHours < deltaHours cand rec then 0
  else similarityScore cfg cand rec

lemma metadataScore_nonneg (cand rec : NormalizedEmail) :
    0 ≤ metadataScore cand rec := by
  unfold metadataScore
  split_ifs <;> norm_num

lemma metadataScore_le_one (cand rec : NormalizedEmail) :
    metadataScore cand rec ≤ 1 := by
  unfold metadataScore
  split_ifs <;> norm_num

lemma metadataScore_ge_of_sender_eq (cand rec : NormalizedEmail)
    (h : cand.sender = rec.sender) : 1/2 ≤ metadataScore cand rec := by
  unfold metadataScore
  have hb : (cand.sender == rec.sender) = true := by
    simp [h]
  by_cases hs : strongMetadataSignal cand rec
  · rw [if_pos hs]; norm_num
  · rw [if_neg hs, if_pos hb]
    split_ifs <;> norm_num

lemma overlapSim_nonneg (ta tb : List String) : 0 ≤ overlapSim ta tb := by
  unfold overlapSim
  split_ifs with h
  · exact le_refl 0
  · positivity

lemma overlapSim_le_one (ta tb : List String) : overlapSim ta tb ≤ 1 := by
  unfold overlapSim
  split_ifs with h
  · norm_num
  · push_neg at h
    have hta : ta ≠ [] := h.1
    have hlen : 0 < ta.length := List.length_pos.mpr hta
    have hmax : 0 < max ta.length tb.length := lt_of_lt_of_le hlen (le_max_left _ _)
    rw [div_le_one (by exact_mod_cast hmax)]
    have hfle : (ta.filter (fun t => decide (t ∈ tb))).length ≤ ta.length :=
      List.length_filter_le _ _
    have : (ta.filter (fun t => decide (t ∈ tb))).length ≤ max ta.length tb.length :=
      le_trans hfle (le_max_left _ _)
    exact_mod_cast this

lemma overlapSim_self (l : List String) (h : l ≠ []) : overlapSim l l = 1 := by
  unfold overlapSim
  rw [if_neg (by simp [h])]
  have hfilter : l.filter (fun t => decide (t ∈ l)) = l := by
    apply List.filter_eq_self.mpr
    intro a ha
    simpa using ha
  rw [hfilter, max_self]
  have hlen : 0 < l.length := List.length_pos.mpr h
  have : ((l.length : Nat) : ℚ) ≠ 0 := by exact_mod_cast Nat.pos_iff_ne_zero.mp hlen
  exact div_self this

lemma contentScore_nonneg (cfg : DetectorConfig) (cand rec : NormalizedEmail)
    (hsw : 0 < cfg.subjectWeight) (hcw : 0 < cfg.contentWeight) :
    0 ≤ contentScore cfg cand rec := by
  unfold contentScore
  have h1 := overlapSim_nonneg cand.subjectTokens rec.subjectTokens
  have h2 := overlapSim_nonneg cand.bodyTokens rec.bodyTokens
  have hd : 0 < cfg.subjectWeight + cfg.contentWeight := by linarith
  apply div_nonneg _ (le_of_lt hd)
  nlinarith

lemma contentScore_le_one (cfg : DetectorConfig) (cand rec : NormalizedEmail)
    (hsw : 0 < cfg.subjectWeight) (hcw : 0 < cfg.contentWeight) :
    contentScore cfg cand rec ≤ 1 := by
  unfold contentScore
  have h1 := overlapSim_le_one cand.subjectTokens rec.subjectTokens
  have h2 := overlapSim_le_one cand.bodyTokens rec.bodyTokens
  have hd : 0 < cfg.subjectWeight + cfg.contentWeight := by linarith
  rw [div_le_one hd]
  nlinarith

lemma timeProximity_nonneg (cfg : DetectorConfig) (cand rec : NormalizedEmail) :
    0 ≤ timeProximity cfg cand rec := le_max_left 0 _

lemma timeProximity_le_one (cfg : DetectorConfig) (cand rec : NormalizedEmail)
    (hW : 0 < cfg.timeWindowHours) : timeProximity cfg cand rec ≤ 1 := by
  unfold timeProximity
  have hd : 0 ≤ deltaHours cand rec := abs_nonneg _
  have : 0 ≤ deltaHours cand rec / cfg.timeWindowHours := by positivity
  apply max_le (by norm_num)
  linarith

lemma undecayedScore_nonneg (cfg : DetectorConfig) (cand rec : NormalizedEmail)
    (hm0 : 0 ≤ cfg.metadataWeight) (hm1 : cfg.metadataWeight ≤ 1)
    (hsw : 0 < cfg.subjectWeight) (hcw : 0 < cfg.contentWeight) :
    0 ≤ undecayedScore cfg cand rec := by
  unfold undecayedScore
  have h1 := metadataScore_nonneg cand rec
  have h2 := contentScore_nonneg cfg cand rec hsw hcw
  nlinarith

/-- Modelled from the spec: the bounded, time-windowed duplicate cache.
Records are kept in insertion order (oldest first) and `nextId` generates
record identifiers at insertion. -/
structure DuplicateCache where
  config : DetectorConfig
  records : List ProcessedEmailRecord
  nextId : Nat
deriving DecidableEq

/-- Modelled from the spec: a record older than `duplicateCacheDays` relative
to the working timestamp has left the retention window and is pruned lazily. -/
def expired (cfg : DetectorConfig) (now : ℚ) (r : ProcessedEmailRecord) : Bool :=
  decide (cfg.duplicateCacheDays * 24 < now - r.email.receivedAt)

/-- A cached record lies within the hard time window of the candidate. -/
def withinWindow (cfg : DetectorConfig) (cand : NormalizedEmail)
    (r : ProcessedEmailRecord) : Bool :=
  decide (deltaHours cand r.email ≤ cfg.timeWindowHours)

/-- Modelled from the spec: the records a candidate is actually compared
against on lookup — the unexpired entries that lie within the time window. -/
def consideredRecords (cache : DuplicateCache) (cand : NormalizedEmail) :
    List ProcessedEmailRecord :=
  (cache.records.filter (fun r => !expired cache.config cand.receivedAt r)).filter
    (fun r => withinWindow cache.config cand r)

/-- C1: for every candidate/cached-record pair scored by SimilarityScorer
(a pair inside the time window), the final score equals
(metadataWeight·m + (1 − metadataWeight)·c) · (0.5 + 0.5·τ); hence the final
score never exceeds the undecayed score, and it is strictly positive whenever
τ > 0 and the undecayed score is positive. -/
theorem finalScore_decay_formula (cfg : DetectorConfig) (cand rec : NormalizedEmail)
    (hm0 : 0 ≤ cfg.metadataWeight) (hm1 : cfg.metadataWeight ≤ 1)
    (hsw : 0 < cfg.subjectWeight) (hcw : 0 < cfg.contentWeight)
    (hW : 0 < cfg.timeWindowHours)
    (hwin : deltaHours cand rec ≤ cfg.timeWindowHours) :
    finalScore cfg cand rec
        = (cfg.metadataWeight * metadataScore cand rec
            + (1 - cfg.metadataWeight) * contentScore cfg cand rec)
          * (1/2 + 1/2 * timeProximity cfg cand rec)
      ∧ finalScore cfg cand rec ≤ undecayedScore cfg cand rec
      ∧ (0 < timeProximity cfg cand rec → 0 < undecayedScore cfg cand rec →
          0 < finalScore cfg cand rec) := by
  have hnot : ¬ cfg.timeWindowHours < deltaHours cand rec := not_lt.mpr hwin
  have hfs : finalScore cfg cand rec = similarityScore cfg cand rec := if_neg hnot
  have hu := undecayedScore_nonneg cfg cand rec hm0 hm1 hsw hcw
  have ht1 := timeProximity_le_one cfg cand rec hW
  have ht0 := timeProximity_nonneg cfg cand rec
  refine ⟨?_, ?_, ?_⟩
  · rw [hfs]; rfl
  · rw [hfs]; unfold similarityScore
    nlinarith [mul_nonneg hu (sub_nonneg.mpr ht1)]
  · intro hτ hund
    rw [hfs]; unfold similarityScore
    have hfac : 0 < 1/2 + 1/2 * timeProximity cfg cand rec := by linarith
    exact mul_pos hund hfac

def c1rec : NormalizedEmail :=
  ⟨"alice@bank.com", some "ops@bank.com", none, "mA", [], [], none,
    ["transfer"], ["move", "funds"], 0⟩

def c1cand : NormalizedEmail :=
  ⟨"alice@bank.com", some "ops@bank.com", none, "mB", [], [], none,
    ["transfer"], ["move", "funds"], 36⟩

theorem finalScore_decay_formula_witness :
    finalScore defaultConfig c1cand c1rec
        = (defaultConfig.metadataWeight * metadataScore c1cand c1rec
            + (1 - defaultConfig.metadataWeight) * contentScore defaultConfig c1cand c1rec)
          * (1/2 + 1/2 * timeProximity defaultConfig c1cand c1rec)
      ∧ finalScore defaultConfig c1cand c1rec ≤ undecayedScore defaultConfig c1cand c1rec
      ∧ (0 < timeProximity defaultConfig c1cand c1rec →
          0 < undecayedScore defaultConfig c1cand c1rec →
          0 < finalScore defaultConfig c1cand c1rec) :=
  finalScore_decay_formula defaultConfig c1cand c1rec
    (by norm_num [defaultConfig]) (by norm_num [defaultConfig])
    (by norm_num [defaultConfig]) (by norm_num [defaultConfig])
    (by norm_num [defaultConfig])
    (by norm_num [deltaHours, c1cand, c1rec, defaultConfig])

/-- C2: a cached record separated from the candidate by more than
`timeWindowHours` has final duplicate score 0 and is excluded from duplicate
consideration entirely — no hypothesis about the cache's own retention window
(`duplicateCacheDays`) is needed. -/
theorem timeWindow_hard_cutoff (cache : DuplicateCache) (cand : NormalizedEmail)
    (r : ProcessedEmailRecord)
    (hout : cache.config.timeWindowHours < deltaHours cand r.email) :
    finalScore cache.config cand r.email = 0
    ∧ r ∉ consideredRecords cache cand := by
  constructor
  · unfold finalScore; rw [if_pos hout]
  · intro hmem
    unfold consideredRecords at hmem
    have h2 := List.of_mem_filter hmem
    unfold withinWindow at h2
    rw [decide_eq_true_eq] at h2
    exact absurd h2 (not_le.mpr hout)

def c2rec : ProcessedEmailRecord :=
  ⟨0, ⟨"alice@bank.com", none, none, "mA", [], [], none,
    ["transfer"], ["move", "funds"], 0⟩, "snapshot A"⟩

def c2cand : NormalizedEmail :=
  ⟨"alice@bank.com", none, none, "mC", [], [], none,
    ["transfer"], ["move", "funds"], 100⟩

theorem timeWindow_hard_cutoff_witness :
    finalScore defaultConfig c2cand c2rec.email = 0
    ∧ c2rec ∉ consideredRecords ⟨defaultConfig, [c2rec], 1⟩ c2cand :=
  timeWindow_hard_cutoff ⟨defaultConfig, [c2rec], 1⟩ c2cand c2rec
    (by norm_num [deltaHours, c2cand, c2rec, defaultConfig])

/-- C8 (amended): either strong signal — identical threadId, or the
candidate's inReplyTo/references chain containing the cached record's
messageId — short-circuits the metadata score to 1.0, and the resulting
final score is at least metadataWeight·(0.5 + 0.5·τ), in particular at least
metadataWeight/2 — but not always at least metadataWeight (see the
counterexample). -/
theorem threadId_short_circuit_bound (cfg : DetectorConfig) (cand rec : NormalizedEmail)
    (hsig : (∃ t, cand.threadId = some t ∧ rec.threadId = some t)
      ∨ rec.messageId ∈ cand.inReplyTo ++ cand.references)
    (hm0 : 0 ≤ cfg.metadataWeight) (hm1 : cfg.metadataWeight ≤ 1)
    (hsw : 0 < cfg.subjectWeight) (hcw : 0 < cfg.contentWeight)
    (hW : 0 < cfg.timeWindowHours)
    (hwin : deltaHours cand rec ≤ cfg.timeWindowHours) :
    metadataScore cand rec = 1
    ∧ cfg.metadataWeight * (1/2 + 1/2 * timeProximity cfg cand rec)
        ≤ finalScore cfg cand rec
    ∧ cfg.metadataWeight / 2 ≤ finalScore cfg cand rec := by
  have hstrong : strongMetadataSignal cand rec = true := by
    unfold strongMetadataSignal
    rcases hsig with ⟨t, hc, hr⟩ | hmem
    · rw [hc, hr]
      simp
    · rw [Bool.or_eq_true]
      right
      exact List.elem_eq_true_of_mem hmem
  have hm : metadataScore cand rec = 1 := by
    unfold metadataScore; rw [if_pos hstrong]
  have hfs : finalScore cfg cand rec = similarityScore cfg cand rec :=
    if_neg (not_lt.mpr hwin)
  have hcs0 := contentScore_nonneg cfg cand rec hsw hcw
  have ht0 := timeProximity_nonneg cfg cand rec
  have hrest : 0 ≤ (1 - cfg.metadataWeight) * contentScore cfg cand rec :=
    mul_nonneg (by linarith) hcs0
  refine ⟨hm, ?_, ?_⟩
  · rw [hfs]; unfold similarityScore undecayedScore; rw [hm]
    nlinarith
  · rw [hfs]; unfold similarityScore undecayedScore; rw [hm]
    nlinarith

def c8cand : NormalizedEmail :=
  ⟨"a@x.com", none, some "t1", "m2", [], [], none, [], [], 71⟩

def c8rec : NormalizedEmail :=
  ⟨"b@y.com", none, some "t1", "m1", [], [], none, [], [], 0⟩

/-- C8 counterexample: a pair with identical threadId, empty content and a
71-hour gap (inside the 72-hour window, so it is scored) has final score
(1/4)·(73/144) = 73/576, which is strictly below metadataWeight = 1/4. -/
theorem threadId_finalScore_cex :
    metadataScore c8cand c8rec = 1
    ∧ deltaHours c8cand c8rec ≤ defaultConfig.timeWindowHours
    ∧ finalScore defaultConfig c8cand c8rec < defaultConfig.metadataWeight := by
  have h1 : metadataScore c8cand c8rec = 1 := by
    simp [metadataScore, strongMetadataSignal, c8cand, c8rec]
  have hdelta : deltaHours c8cand c8rec = 71 := by
    norm_num [deltaHours, c8cand, c8rec]
  refine ⟨h1, ?_, ?_⟩
  · rw [hdelta]; norm_num [defaultConfig]
  · have hc : contentScore defaultConfig c8cand c8rec = 0 := by
      norm_num [contentScore, overlapSim, c8cand, c8rec, defaultConfig]
    have hτ : timeProximity defaultConfig c8cand c8rec = 1/72 := by
      rw [timeProximity, hdelta]; norm_num [defaultConfig]
    have hfs : finalScore defaultConfig c8cand c8rec
        = similarityScore defaultConfig c8cand c8rec := by
      unfold finalScore
      rw [hdelta, if_neg (by norm_num [defaultConfig])]
    rw [hfs]; unfold similarityScore undecayedScore
    rw [h1, hc, hτ]
    norm_num [defaultConfig]

def c8winCand : NormalizedEmail :=
  ⟨"a@x.com", none, none, "m2", ["m1"], [], none, [], [], 10⟩

def c8winRec : NormalizedEmail :=
  ⟨"b@y.com", none, none, "m1", [], [], none, [], [], 0⟩

theorem threadId_short_circuit_bound_witness :
    metadataScore c8winCand c8winRec = 1
    ∧ defaultConfig.metadataWeight * (1/2 + 1/2 * timeProximity defaultConfig c8winCand c8winRec)
        ≤ finalScore defaultConfig c8winCand c8winRec
    ∧ defaultConfig.metadataWeight / 2 ≤ finalScore defaultConfig c8winCand c8winRec :=
  threadId_short_circuit_bound defaultConfig c8winCand c8winRec
    (Or.inr (by simp [c8winCand, c8winRec]))
    (by norm_num [defaultConfig]) (by norm_num [defaultConfig])
    (by norm_num [defaultConfig]) (by norm_num [defaultConfig])
    (by norm_num [defaultConfig])
    (by norm_num [deltaHours, c8winCand, c8winRec, defaultConfig])

/-- C9: a candidate with empty subject and empty body contributes content
score exactly 0 — never an undefined or spuriously high zero-vector
comparison — so its final score is at most metadataWeight·m and it can cross
the duplicate threshold only through strong metadata. -/
theorem empty_content_scores_zero (cfg : DetectorConfig) (cand rec : NormalizedEmail)
    (hsub : cand.subjectTokens = []) (hbody : cand.bodyTokens = [])
    (hm0 : 0 ≤ cfg.metadataWeight) (hW : 0 < cfg.timeWindowHours) :
    contentScore cfg cand rec = 0
    ∧ finalScore cfg cand rec ≤ cfg.metadataWeight * metadataScore cand rec := by
  have hc : contentScore cfg cand rec = 0 := by
    unfold contentScore
    rw [hsub, hbody]
    simp [overlapSim]
  refine ⟨hc, ?_⟩
  have hm := metadataScore_nonneg cand rec
  have ht0 := timeProximity_nonneg cfg cand rec
  have ht1 := timeProximity_le_one cfg cand rec hW
  have hmm : 0 ≤ cfg.metadataWeight * metadataScore cand rec := mul_nonneg hm0 hm
  unfold finalScore
  split_ifs with h
  · exact hmm
  · unfold similarityScore undecayedScore
    rw [hc]
    nlinarith

def c9cand : NormalizedEmail :=
  ⟨"alice@bank.com", none, none, "mE", [], [], none, [], [], 5⟩

def c9rec : NormalizedEmail :=
  ⟨"alice@bank.com", none, none, "mA", [], [], none,
    ["transfer"], ["move", "funds"], 0⟩

theorem empty_content_scores_zero_witness :
    contentScore defaultConfig c9cand c9rec = 0
    ∧ finalScore defaultConfig c9cand c9rec
        ≤ defaultConfig.metadataWeight * metadataScore c9cand c9rec :=
  empty_content_scores_zero defaultConfig c9cand c9rec
    (by norm_num [c9cand]) (by norm_num [c9cand])
    (by norm_num [defaultConfig]) (by norm_num [defaultConfig])

/-- Modelled from the spec: result of a DuplicateCache lookup. -/
structure LookupResult where
  is_duplicate : Bool
  confidence : ℚ
  matchedId : Option Nat
  reason : String
deriving DecidableEq

/-- One scored candidate beats another when its score is strictly higher, or
the scores tie and it was received more recently (the spec's tie-break). -/
def betterCandidate (p q : ProcessedEmailRecord × ℚ) : Bool :=
  decide (p.2 < q.2)
    || (decide (p.2 = q.2) && decide (p.1.email.receivedAt < q.1.email.receivedAt))

/-- The maximal scored record of a list under `betterCandidate`. -/
def bestCandidate : List (ProcessedEmailRecord × ℚ) → Option (ProcessedEmailRecord × ℚ)
  | [] => none
  | p :: rest =>
    match bestCandidate rest with
    | none => some p
    | some q => if betterCandidate p q then some q else some p

/-- Modelled from the spec: DuplicateCache.lookup — prune expired entries,
compare the candidate against the live records inside the time window, and
return the maximum final score with the argmax record's id; duplicate iff the
score reaches `semanticThreshold`. -/
def DuplicateCache.lookup (cache : DuplicateCache) (cand : NormalizedEmail) :
    LookupResult :=
  let scored := (consideredRecords cache cand).map
    (fun r => (r, finalScore cache.config cand r.email))
  match bestCandidate scored with
  | none => ⟨false, 0, none, "no live candidate"⟩
  | some (r, s) =>
      ⟨decide (cache.config.semanticThreshold ≤ s), s, some r.id,
        r.classificationSnapshot⟩

/-- Modelled from the spec: evict one record — the least-recently-inserted
record outside the retention window when one exists, otherwise the
first-inserted (globally oldest) record. -/
def evictOne (cfg : DetectorConfig) (now : ℚ) (rs : List ProcessedEmailRecord) :
    List ProcessedEmailRecord :=
  if rs.any (fun r => expired cfg now r) then
    rs.eraseIdx (rs.findIdx (fun r => expired cfg now r))
  else rs.tail

/-- Evict records until the list fits the capacity bound; the fuel argument
bounds the number of evictions by the list length. -/
def evictUntilFits (cfg : DetectorConfig) (now : ℚ) :
    Nat → List ProcessedEmailRecord → List ProcessedEmailRecord
  | 0, rs => rs
  | fuel + 1, rs =>
    if rs.length ≤ cfg.duplicateCacheSize then rs
    else evictUntilFits cfg now fuel (evictOne cfg now rs)

/-- Modelled from the spec: DuplicateCache.insert — always succeeds, appends a
fresh record with a newly generated id, and when capacity is exceeded evicts
expired records first and then the globally oldest record. -/
def DuplicateCache.insert (cache : DuplicateCache) (e : NormalizedEmail)
    (snapshot : String) : DuplicateCache :=
  let r : ProcessedEmailRecord := ⟨cache.nextId, e, snapshot⟩
  let rs := cache.records ++ [r]
  ⟨cache.config, evictUntilFits cache.config e.receivedAt rs.length rs,
    cache.nextId + 1⟩

lemma evictUntilFits_of_fits (cfg : DetectorConfig) (now : ℚ) (fuel : Nat)
    (rs : List ProcessedEmailRecord) (h : rs.length ≤ cfg.duplicateCacheSize) :
    evictUntilFits cfg now fuel rs = rs := by
  cases fuel with
  | zero => rfl
  | succ n => unfold evictUntilFits; rw [if_pos h]

/-- C7: inserting into a cache at capacity whose records are all live (none
expired at the new record's timestamp) evicts exactly the first-inserted —
under the spec's monotone-arrival invariant, the oldest — live record and no
other, and the cache is back at capacity afterwards. -/
theorem insert_at_capacity_evicts_oldest_live (cache : DuplicateCache)
    (e : NormalizedEmail) (snapshot : String)
    (hdays : 0 ≤ cache.config.duplicateCacheDays)
    (hfull : cache.records.length = cache.config.duplicateCacheSize)
    (hpos : 0 < cache.config.duplicateCacheSize)
    (hlive : ∀ r ∈ cache.records, expired cache.config e.receivedAt r = false) :
    (cache.insert e snapshot).records
        = cache.records.tail ++ [⟨cache.nextId, e, snapshot⟩]
    ∧ (cache.insert e snapshot).records.length = cache.config.duplicateCacheSize := by
  have hne : cache.records ≠ [] := by
    intro h0
    rw [h0] at hfull
    simp at hfull
    omega
  set r : ProcessedEmailRecord := ⟨cache.nextId, e, snapshot⟩ with hr
  have hrlive : expired cache.config e.receivedAt r = false := by
    unfold expired
    rw [decide_eq_false_iff_not]
    rw [hr]
    simp
    nlinarith
  have hall : ∀ x ∈ cache.records ++ [r],
      expired cache.config e.receivedAt x = false := by
    intro x hx
    rcases List.mem_append.mp hx with h | h
    · exact hlive x h
    · rw [List.mem_singleton.mp h]; exact hrlive
  have hanyf : (cache.records ++ [r]).any
      (fun x => expired cache.config e.receivedAt x) = false := by
    rw [List.any_eq_false]
    intro x hx
    rw [hall x hx]
    simp
  have hlen : (cache.records ++ [r]).length
      = cache.config.duplicateCacheSize + 1 := by
    simp [hfull]
  have hevict1 : evictOne cache.config e.receivedAt (cache.records ++ [r])
      = cache.records.tail ++ [r] := by
    unfold evictOne
    rw [if_neg (by rw [hanyf]; simp)]
    rw [List.tail_append_singleton_of_ne_nil hne]
  have htail : (cache.records.tail ++ [r]).length
      = cache.config.duplicateCacheSize := by
    rw [List.length_append, List.length_tail, hfull]
    simp
    omega
  have hstep : (cache.insert e snapshot).records
      = cache.records.tail ++ [r] := by
    show evictUntilFits cache.config e.receivedAt
        (cache.records ++ [r]).length (cache.records ++ [r])
      = cache.records.tail ++ [r]
    rw [hlen]
    unfold evictUntilFits
    rw [if_neg (by omega), hevict1]
    exact evictUntilFits_of_fits _ _ _ _ (le_of_eq htail)
  exact ⟨hstep, by rw [hstep]; exact htail⟩

def c7cfg : DetectorConfig := ⟨14, 2, 4/5, 1/4, 9/20, 9/10, 72⟩

def c7r1 : ProcessedEmailRecord :=
  ⟨0, ⟨"a@x.com", none, none, "m1", [], [], none, ["hello"], ["one"], 0⟩, "snap 1"⟩

def c7r2 : ProcessedEmailRecord :=
  ⟨1, ⟨"b@y.com", none, none, "m2", [], [], none, ["hello"], ["two"], 1⟩, "snap 2"⟩

def c7new : NormalizedEmail :=
  ⟨"c@z.com", none, none, "m3", [], [], none, ["hello"], ["three"], 2⟩

theorem insert_at_capacity_evicts_oldest_live_witness :
    (DuplicateCache.insert ⟨c7cfg, [c7r1, c7r2], 2⟩ c7new "snap 3").records
        = ([c7r1, c7r2] : List ProcessedEmailRecord).tail ++ [⟨2, c7new, "snap 3"⟩]
    ∧ (DuplicateCache.insert ⟨c7cfg, [c7r1, c7r2], 2⟩ c7new "snap 3").records.length
        = c7cfg.duplicateCacheSize :=
  insert_at_capacity_evicts_oldest_live ⟨c7cfg, [c7r1, c7r2], 2⟩ c7new "snap 3"
    (by norm_num [c7cfg]) (by norm_num [c7cfg]) (by norm_num [c7cfg])
    (by
      intro x hx
      rcases List.mem_cons.mp hx with h | h
      · subst h; norm_num [expired, c7cfg, c7r1, c7new]
      · rw [List.mem_singleton.mp h]; norm_num [expired, c7cfg, c7r2, c7new])

/-- Modelled from the spec: one parsed request-type entry of the model's
classification output. -/
structure RequestTypeEntry where
  request_type : String
  sub_request_type : String
  confidence : ℚ
  reasoning : String
  is_primary : Bool
deriving DecidableEq

/-- Modelled from the spec: one extracted structured field. -/
structure ExtractedField where
  field_name : String
  value : String
  confidence : ℚ
  source : String
deriving DecidableEq

/-- Modelled from the spec: the classification response shape, with the
literal field names of the external interface. -/
structure ClassificationResult where
  request_types : List RequestTypeEntry
  extracted_fields : List ExtractedField
  support_group : String
  is_duplicate : Bool
  duplicate_reason : Option String
  duplicate_confidence : ℚ
  duplicate_id : Option Nat
  processing_time_ms : ℚ
  error : Option String
deriving DecidableEq

/-- Number of entries flagged primary in a parsed sequence. -/
def primaryCount (l : List RequestTypeEntry) : Nat :=
  (l.filter (fun e => e.is_primary)).length

/-- Demote every entry of a sequence. -/
def demoteAll (l : List RequestTypeEntry) : List RequestTypeEntry :=
  l.map (fun e => { e with is_primary := false })

/-- Modelled from the spec: mark as primary the first entry of maximal
confidence (highest confidence, ties broken by list order) and demote every
other entry. -/
def markFirstMax : List RequestTypeEntry → List RequestTypeEntry
  | [] => []
  | e :: rest =>
    if ∀ x ∈ rest, x.confidence ≤ e.confidence then
      { e with is_primary := true } :: demoteAll rest
    else
      { e with is_primary := false } :: markFirstMax rest

/-- Modelled from the spec: the orchestrator's primary normalization — a
parsed sequence that already has exactly one primary is kept as is; otherwise
the highest-confidence entry becomes the unique primary and the rest are
demoted. -/
def selectPrimary (l : List RequestTypeEntry) : List RequestTypeEntry :=
  if primaryCount l = 1 then l else markFirstMax l

lemma primaryCount_cons_true (e : RequestTypeEntry) (l : List RequestTypeEntry)
    (he : e.is_primary = true) : primaryCount (e :: l) = primaryCount l + 1 := by
  simp [primaryCount, List.filter_cons, he]

lemma primaryCount_cons_false (e : RequestTypeEntry) (l : List RequestTypeEntry)
    (he : e.is_primary = false) : primaryCount (e :: l) = primaryCount l := by
  simp [primaryCount, List.filter_cons, he]

lemma primaryCount_demoteAll (l : List RequestTypeEntry) :
    primaryCount (demoteAll l) = 0 := by
  induction l with
  | nil => rfl
  | cons e rest ih =>
    have : demoteAll (e :: rest) = { e with is_primary := false } :: demoteAll rest := rfl
    rw [this, primaryCount_cons_false _ _ rfl, ih]

lemma primaryCount_markFirstMax (l : List RequestTypeEntry) (h : l ≠ []) :
    primaryCount (markFirstMax l) = 1 := by
  induction l with
  | nil => exact absurd rfl h
  | cons e rest ih =>
    unfold markFirstMax
    split_ifs with hmax
    · rw [primaryCount_cons_true _ _ rfl, primaryCount_demoteAll]
    · have hrest : rest ≠ [] := by
        intro h0; subst h0; simp at hmax
      rw [primaryCount_cons_false _ _ rfl, ih hrest]

lemma markFirstMax_primary_is_max (l : List RequestTypeEntry) :
    ∀ p ∈ markFirstMax l, p.is_primary = true →
      ∀ x ∈ l, x.confidence ≤ p.confidence := by
  induction l with
  | nil => intro p hp; simp [markFirstMax] at hp
  | cons e rest ih =>
    intro p hp hprim x hx
    unfold markFirstMax at hp
    split_ifs at hp with hmax
    · rcases List.mem_cons.mp hp with h | h
      · subst h
        rcases List.mem_cons.mp hx with h2 | h2
        · subst h2; exact le_refl _
        · exact hmax x h2
      · exfalso
        obtain ⟨y, hy, hyeq⟩ := List.mem_map.mp h
        rw [← hyeq] at hprim
        simp at hprim
    · rcases List.mem_cons.mp hp with h | h
      · subst h; simp at hprim
      · rcases List.mem_cons.mp hx with h2 | h2
        · subst h2
          push_neg at hmax
          obtain ⟨y, hy, hlt⟩ := hmax
          have := ih p h hprim y hy
          linarith
        · exact ih p h hprim x h2

lemma primaryCount_selectPrimary (l : List RequestTypeEntry) (h : l ≠ []) :
    primaryCount (selectPrimary l) = 1 := by
  unfold selectPrimary
  split_ifs with h1
  · exact h1
  · exact primaryCount_markFirstMax l h

/-- Modelled from the spec: the taxonomy of LLM-call failures that the
orchestrator recovers into an error result. -/
inductive LLMFailure
  | upstreamTimeout
  | upstreamExhausted
  | malformedModelResponse
deriving DecidableEq

/-- The error code each failure surfaces on the result. -/
def LLMFailure.code : LLMFailure → String
  | LLMFailure.upstreamTimeout => "UpstreamTimeout"
  | LLMFailure.upstreamExhausted => "UpstreamExhausted"
  | LLMFailure.malformedModelResponse => "MalformedModelResponse"

/-- Modelled from the spec: the failure-branch result — the pipeline never
surfaces a bare exception; a failure populates `error` alongside empty
request types and extracted fields, with the elapsed time still reported. -/
def errorResult (dup : LookupResult) (ms : ℚ) (err : String) : ClassificationResult :=
  ⟨[], [], "", dup.is_duplicate,
    (if dup.is_duplicate then some dup.reason else none),
    dup.confidence, dup.matchedId, ms, some err⟩

/-- Modelled from the spec: assemble the final ClassificationResult from the
duplicate-check outcome and the LLM classification outcome.  An LLM failure
or an empty parsed sequence takes the failure branch; otherwise the parsed
entries are normalized to exactly one primary. -/
def buildResult (dup : LookupResult) (llm : Except LLMFailure (List RequestTypeEntry))
    (fields : List ExtractedField) (sg : String) (ms : ℚ) : ClassificationResult :=
  match llm with
  | Except.error f => errorResult dup ms f.code
  | Except.ok entries =>
    if entries = [] then errorResult dup ms LLMFailure.malformedModelResponse.code
    else
      ⟨selectPrimary entries, fields, sg, dup.is_duplicate,
        (if dup.is_duplicate then some dup.reason else none),
        dup.confidence, dup.matchedId, ms, none⟩

/-- Modelled from the spec: one orchestrator run — duplicate lookup on the
cache, result assembly, and insertion of the new record (even when it is
flagged a duplicate) with a freshly generated id. -/
def classifyStep (cache : DuplicateCache) (e : NormalizedEmail)
    (llm : Except LLMFailure (List RequestTypeEntry)) (fields : List ExtractedField)
    (sg : String) (ms : ℚ) (snapshot : String) :
    ClassificationResult × DuplicateCache :=
  (buildResult (cache.lookup e) llm fields sg ms, cache.insert e snapshot)

lemma buildResult_dup_fields (dup : LookupResult)
    (llm : Except LLMFailure (List RequestTypeEntry)) (fields : List ExtractedField)
    (sg : String) (ms : ℚ) :
    (buildResult dup llm fields sg ms).is_duplicate = dup.is_duplicate
    ∧ (buildResult dup llm fields sg ms).duplicate_confidence = dup.confidence
    ∧ (buildResult dup llm fields sg ms).duplicate_id = dup.matchedId := by
  cases llm with
  | error f => exact ⟨rfl, rfl, rfl⟩
  | ok entries =>
    by_cases h : entries = [] <;> simp [buildResult, errorResult, h]

/-- C5: every ClassificationResult returned with error = null carries exactly
one is_primary entry in request_types; when the model's parsed output has
zero or more than one primary, the orchestrator promotes a highest-confidence
entry and demotes the rest. -/
theorem nonError_result_exactly_one_primary (dup : LookupResult)
    (entries : List RequestTypeEntry) (fields : List ExtractedField)
    (sg : String) (ms : ℚ)
    (herr : (buildResult dup (Except.ok entries) fields sg ms).error = none) :
    primaryCount (buildResult dup (Except.ok entries) fields sg ms).request_types = 1
    ∧ (primaryCount entries ≠ 1 →
        ∀ p ∈ (buildResult dup (Except.ok entries) fields sg ms).request_types,
          p.is_primary = true → ∀ x ∈ entries, x.confidence ≤ p.confidence) := by
  have hne : entries ≠ [] := by
    intro h0
    rw [h0] at herr
    simp [buildResult, errorResult] at herr
  have hrt : (buildResult dup (Except.ok entries) fields sg ms).request_types
      = selectPrimary entries := by
    simp [buildResult, hne]
  constructor
  · rw [hrt]; exact primaryCount_selectPrimary entries hne
  · intro hcnt p hp hprim x hx
    rw [hrt] at hp
    unfold selectPrimary at hp
    rw [if_neg hcnt] at hp
    exact markFirstMax_primary_is_max entries p hp hprim x hx

def c5dup : LookupResult := ⟨false, 0, none, "no live candidate"⟩

def c5e1 : RequestTypeEntry :=
  ⟨"Money Movement-Inbound", "Principal", 9/10, "mentions inbound transfer", true⟩

def c5e2 : RequestTypeEntry :=
  ⟨"Fee Payment", "Ongoing Fee", 3/5, "mentions a fee", true⟩

theorem nonError_result_exactly_one_primary_witness :
    primaryCount (buildResult c5dup (Except.ok [c5e1, c5e2]) [] "Lending" 100).request_types = 1
    ∧ (primaryCount [c5e1, c5e2] ≠ 1 →
        ∀ p ∈ (buildResult c5dup (Except.ok [c5e1, c5e2]) [] "Lending" 100).request_types,
          p.is_primary = true →
            ∀ x ∈ [c5e1, c5e2], x.confidence ≤ p.confidence) :=
  nonError_result_exactly_one_primary c5dup [c5e1, c5e2] [] "Lending" 100
    (by simp [buildResult])

/-- C6: on any LLM-call failure the pipeline still returns a well-formed
ClassificationResult rather than a bare exception: the error field carries
the failure code, request_types and extracted_fields are empty, and the
measured processing time is still reported; exhausted keys in particular
surface error "UpstreamExhausted". -/
theorem llm_failure_yields_error_result (dup : LookupResult) (f : LLMFailure)
    (fields : List ExtractedField) (sg : String) (ms : ℚ) :
    (buildResult dup (Except.error f) fields sg ms).error = some f.code
    ∧ (buildResult dup (Except.error f) fields sg ms).request_types = []
    ∧ (buildResult dup (Except.error f) fields sg ms).extracted_fields = []
    ∧ (buildResult dup (Except.error f) fields sg ms).processing_time_ms = ms
    ∧ (buildResult dup (Except.error LLMFailure.upstreamExhausted) fields sg ms).error
        = some "UpstreamExhausted" :=
  ⟨rfl, rfl, rfl, rfl, rfl⟩

lemma lookup_singleton (cfg : DetectorConfig) (r : ProcessedEmailRecord)
    (n : Nat) (cand : NormalizedEmail)
    (hexp : expired cfg cand.receivedAt r = false)
    (hwin : withinWindow cfg cand r = true) :
    DuplicateCache.lookup ⟨cfg, [r], n⟩ cand
      = ⟨decide (cfg.semanticThreshold ≤ finalScore cfg cand r.email),
          finalScore cfg cand r.email, some r.id, r.classificationSnapshot⟩ := by
  unfold DuplicateCache.lookup consideredRecords
  simp [hexp, hwin, bestCandidate]

lemma insert_into_empty (cfg : DetectorConfig) (n : Nat) (e : NormalizedEmail)
    (snapshot : String) (hcap : 1 ≤ cfg.duplicateCacheSize) :
    DuplicateCache.insert ⟨cfg, [], n⟩ e snapshot = ⟨cfg, [⟨n, e, snapshot⟩], n + 1⟩ := by
  unfold DuplicateCache.insert
  simp [evictUntilFits, hcap]

/-- C3 (amended): after a first email is classified and inserted into an
empty cache (default configuration), a second email with byte-identical
sender, subject and body (both nonempty), submitted at most 12 hours later,
is reported as a duplicate of the first record: is_duplicate is true,
duplicate_confidence reaches semanticThreshold (0.8), and duplicate_id is the
first record's id.  Resubmissions later in the 72-hour window can fall below
the threshold because of time decay — see the counterexample. -/
theorem idempotence_close_resubmission (a b : NormalizedEmail)
    (llm1 llm2 : Except LLMFailure (List RequestTypeEntry))
    (f1 f2 : List ExtractedField) (sg1 sg2 : String) (ms1 ms2 : ℚ)
    (snap1 snap2 : String)
    (hsender : b.sender = a.sender)
    (hsubj : b.subjectTokens = a.subjectTokens) (hsubne : a.subjectTokens ≠ [])
    (hbody : b.bodyTokens = a.bodyTokens) (hbodyne : a.bodyTokens ≠ [])
    (hdt0 : 0 ≤ b.receivedAt - a.receivedAt)
    (hdt : b.receivedAt - a.receivedAt ≤ 12) :
    (classifyStep (classifyStep ⟨defaultConfig, [], 0⟩ a llm1 f1 sg1 ms1 snap1).2
        b llm2 f2 sg2 ms2 snap2).1.is_duplicate = true
    ∧ defaultConfig.semanticThreshold
        ≤ (classifyStep (classifyStep ⟨defaultConfig, [], 0⟩ a llm1 f1 sg1 ms1 snap1).2
            b llm2 f2 sg2 ms2 snap2).1.duplicate_confidence
    ∧ (classifyStep (classifyStep ⟨defaultConfig, [], 0⟩ a llm1 f1 sg1 ms1 snap1).2
        b llm2 f2 sg2 ms2 snap2).1.duplicate_id = some 0 := by
  have hcache1 : (classifyStep ⟨defaultConfig, [], 0⟩ a llm1 f1 sg1 ms1 snap1).2
      = ⟨defaultConfig, [⟨0, a, snap1⟩], 1⟩ := by
    show DuplicateCache.insert ⟨defaultConfig, [], 0⟩ a snap1
        = ⟨defaultConfig, [⟨0, a, snap1⟩], 1⟩
    exact insert_into_empty defaultConfig 0 a snap1 (by norm_num [defaultConfig])
  have hdelta : deltaHours b a = b.receivedAt - a.receivedAt := by
    unfold deltaHours
    exact abs_of_nonneg hdt0
  have hexp : expired defaultConfig b.receivedAt (⟨0, a, snap1⟩ : ProcessedEmailRecord)
      = false := by
    unfold expired
    rw [decide_eq_false_iff_not]
    show ¬ defaultConfig.duplicateCacheDays * 24 < b.receivedAt - a.receivedAt
    norm_num [defaultConfig]
    linarith
  have hwin : withinWindow defaultConfig b (⟨0, a, snap1⟩ : ProcessedEmailRecord)
      = true := by
    unfold withinWindow
    rw [decide_eq_true_eq]
    show deltaHours b a ≤ defaultConfig.timeWindowHours
    rw [hdelta]
    norm_num [defaultConfig]
    linarith
  have hlk := lookup_singleton defaultConfig ⟨0, a, snap1⟩ 1 b hexp hwin
  -- the final score of the resubmission is at least 77/96 > 4/5
  have hmeta : 1/2 ≤ metadataScore b a := metadataScore_ge_of_sender_eq b a hsender
  have hcontent : contentScore defaultConfig b a = 1 := by
    unfold contentScore
    rw [hsubj, hbody, overlapSim_self _ hsubne, overlapSim_self _ hbodyne]
    norm_num [defaultConfig]
  have hτ : 5/6 ≤ timeProximity defaultConfig b a := by
    unfold timeProximity
    rw [hdelta]
    apply le_max_of_le_right
    norm_num [defaultConfig]
    linarith
  have hscore : (4 : ℚ)/5 ≤ finalScore defaultConfig b a := by
    have hfs : finalScore defaultConfig b a = similarityScore defaultConfig b a := by
      unfold finalScore
      rw [if_neg]
      rw [not_lt, hdelta]
      norm_num [defaultConfig]
      linarith
    rw [hfs]
    unfold similarityScore undecayedScore
    rw [hcontent]
    have hmw : defaultConfig.metadataWeight = 1/4 := rfl
    rw [hmw]
    have hm := hmeta
    have ht := hτ
    nlinarith [mul_nonneg (by linarith : (0:ℚ) ≤ metadataScore b a - 1/2)
      (by linarith : (0:ℚ) ≤ timeProximity defaultConfig b a - 5/6)]
  have hdup := buildResult_dup_fields (DuplicateCache.lookup ⟨defaultConfig, [⟨0, a, snap1⟩], 1⟩ b)
    llm2 f2 sg2 ms2
  refine ⟨?_, ?_, ?_⟩
  · show (buildResult ((classifyStep ⟨defaultConfig, [], 0⟩ a llm1 f1 sg1 ms1 snap1).2.lookup b)
        llm2 f2 sg2 ms2).is_duplicate = true
    rw [hcache1]
    rw [hdup.1, hlk]
    rw [decide_eq_true_eq]
    exact hscore
  · show defaultConfig.semanticThreshold
        ≤ (buildResult ((classifyStep ⟨defaultConfig, [], 0⟩ a llm1 f1 sg1 ms1 snap1).2.lookup b)
            llm2 f2 sg2 ms2).duplicate_confidence
    rw [hcache1]
    rw [hdup.2.1, hlk]
    show defaultConfig.semanticThreshold ≤ finalScore defaultConfig b a
    norm_num [defaultConfig] at hscore ⊢
    exact hscore
  · show (buildResult ((classifyStep ⟨defaultConfig, [], 0⟩ a llm1 f1 sg1 ms1 snap1).2.lookup b)
        llm2 f2 sg2 ms2).duplicate_id = some 0
    rw [hcache1]
    rw [hdup.2.2, hlk]

def c3wa : NormalizedEmail :=
  ⟨"x@bank.com", none, none, "mA", [], [], none, ["transfer", "funds"],
    ["move", "50000", "to", "account", "123"], 0⟩

def c3wb : NormalizedEmail :=
  ⟨"x@bank.com", none, none, "mB", [], [], none, ["transfer", "funds"],
    ["move", "50000", "to", "account", "123"], 1⟩

theorem idempotence_close_resubmission_witness :
    (classifyStep (classifyStep ⟨defaultConfig, [], 0⟩ c3wa (Except.ok []) [] "" 0 "s1").2
        c3wb (Except.ok []) [] "" 0 "s2").1.is_duplicate = true
    ∧ defaultConfig.semanticThreshold
        ≤ (classifyStep (classifyStep ⟨defaultConfig, [], 0⟩ c3wa (Except.ok []) [] "" 0 "s1").2
            c3wb (Except.ok []) [] "" 0 "s2").1.duplicate_confidence
    ∧ (classifyStep (classifyStep ⟨defaultConfig, [], 0⟩ c3wa (Except.ok []) [] "" 0 "s1").2
        c3wb (Except.ok []) [] "" 0 "s2").1.duplicate_id = some 0 :=
  idempotence_close_resubmission c3wa c3wb (Except.ok []) (Except.ok []) [] [] "" "" 0 0
    "s1" "s2"
    (by norm_num [c3wa, c3wb]) (by norm_num [c3wa, c3wb]) (by simp [c3wa])
    (by norm_num [c3wa, c3wb]) (by simp [c3wa]) (by norm_num [c3wa, c3wb])
    (by norm_num [c3wa, c3wb])

def c3a : NormalizedEmail :=
  ⟨"x@bank.com", none, none, "mA", [], [], none, ["transfer", "funds"],
    ["move", "50000", "to", "account", "123"], 0⟩

def c3b : NormalizedEmail :=
  ⟨"x@bank.com", none, none, "mB", [], [], none, ["transfer", "funds"],
    ["move", "50000", "to", "account", "123"], 71⟩

/-- C3 counterexample: the byte-identical email resubmitted 71 hours later —
still inside the 72-hour time window — scores (7/8)·(73/144) = 511/1152,
below the 0.8 threshold, so the second submission is not flagged a duplicate
even though the content is identical. -/
theorem idempotence_within_window_cex :
    deltaHours c3b c3a ≤ defaultConfig.timeWindowHours
    ∧ (classifyStep (classifyStep ⟨defaultConfig, [], 0⟩ c3a (Except.ok []) [] "" 0 "s1").2
        c3b (Except.ok []) [] "" 0 "s2").1.is_duplicate = false := by
  have hδ : deltaHours c3b c3a = 71 := by norm_num [deltaHours, c3a, c3b]
  constructor
  · rw [hδ]; norm_num [defaultConfig]
  · have hcache1 : (classifyStep ⟨defaultConfig, [], 0⟩ c3a (Except.ok []) [] "" 0 "s1").2
        = ⟨defaultConfig, [⟨0, c3a, "s1"⟩], 1⟩ := by
      show DuplicateCache.insert ⟨defaultConfig, [], 0⟩ c3a "s1"
          = ⟨defaultConfig, [⟨0, c3a, "s1"⟩], 1⟩
      exact insert_into_empty defaultConfig 0 c3a "s1" (by norm_num [defaultConfig])
    have hexp : expired defaultConfig c3b.receivedAt
        (⟨0, c3a, "s1"⟩ : ProcessedEmailRecord) = false := by
      norm_num [expired, c3a, c3b, defaultConfig]
    have hwin : withinWindow defaultConfig c3b
        (⟨0, c3a, "s1"⟩ : ProcessedEmailRecord) = true := by
      norm_num [withinWindow, deltaHours, c3a, c3b, defaultConfig]
    have hlk := lookup_singleton defaultConfig ⟨0, c3a, "s1"⟩ 1 c3b hexp hwin
    have hm : metadataScore c3b c3a = 1/2 := by
      norm_num [metadataScore, strongMetadataSignal, optionMatch, List.contains, c3a, c3b]
    have hc : contentScore defaultConfig c3b c3a = 1 := by
      have h1 : c3b.subjectTokens = c3a.subjectTokens := rfl
      have h2 : c3b.bodyTokens = c3a.bodyTokens := rfl
      unfold contentScore
      rw [h1, h2, overlapSim_self _ (by simp [c3a]), overlapSim_self _ (by simp [c3a])]
      norm_num [defaultConfig]
    have hτ : timeProximity defaultConfig c3b c3a = 1/72 := by
      unfold timeProximity
      rw [hδ]
      norm_num [defaultConfig]
    have hs : finalScore defaultConfig c3b c3a = 511/1152 := by
      unfold finalScore
      rw [hδ, if_neg (by norm_num [defaultConfig])]
      unfold similarityScore undecayedScore
      rw [hm, hc, hτ]
      norm_num [defaultConfig]
    have hdup := buildResult_dup_fields
      (DuplicateCache.lookup ⟨defaultConfig, [⟨0, c3a, "s1"⟩], 1⟩ c3b)
      (Except.ok []) [] "" 0
    show (buildResult
        ((classifyStep ⟨defaultConfig, [], 0⟩ c3a (Except.ok []) [] "" 0 "s1").2.lookup c3b)
        (Except.ok []) [] "" 0).is_duplicate = false
    rw [hcache1, hdup.1, hlk]
    show decide (defaultConfig.semanticThreshold ≤ finalScore defaultConfig c3b c3a) = false
    rw [decide_eq_false_iff_not, hs]
    norm_num [defaultConfig]

/-- Modelled from the spec: one rate-limited credential per (service, key). -/
structure ApiKeyEntry where
  service : String
  key : String
  callLimit : Nat
  periodMinutes : ℚ
  usedCalls : Nat
  windowStartedAt : ℚ
deriving DecidableEq

/-- The configured period has elapsed since the key's window started. -/
def windowElapsed (k : ApiKeyEntry) (now : ℚ) : Bool :=
  decide (k.windowStartedAt + k.periodMinutes ≤ now)

/-- Calls counted against the key's current window: a lapsed window counts
as zero used calls. -/
def effectiveUsed (k : ApiKeyEntry) (now : ℚ) : Nat :=
  if windowElapsed k now then 0 else k.usedCalls

/-- A key is eligible when its current window still has quota left. -/
def eligible (k : ApiKeyEntry) (now : ℚ) : Bool :=
  decide (effectiveUsed k now < k.callLimit)

/-- Modelled from the spec: ApiKeyPool.acquire — selects, among the keys
registered for the service, the first whose window has not exceeded
callLimit; when none qualifies the Exhausted failure (none) is returned. -/
def ApiKeyPool.acquire (pool : List ApiKeyEntry) (service : String) (now : ℚ) :
    Option ApiKeyEntry :=
  (pool.filter (fun k => k.service == service)).find? (fun k => eligible k now)

/-- Modelled from the spec: ApiKeyPool.recordUsage — when the configured
period has elapsed since windowStartedAt, reset usedCalls to 0 and advance
windowStartedAt to now before incrementing. -/
def ApiKeyPool.recordUsage (k : ApiKeyEntry) (now : ℚ) : ApiKeyEntry :=
  if windowElapsed k now then
    { k with usedCalls := 0 + 1, windowStartedAt := now }
  else
    { k with usedCalls := k.usedCalls + 1 }

/-- C4: acquire never returns a key whose usedCalls have reached callLimit
within the key's current (un-elapsed) window; and once periodMinutes have
elapsed, a previously exhausted key becomes acquirable again, with
recordUsage resetting usedCalls to 0 and advancing windowStartedAt to now
before incrementing. -/
theorem acquire_respects_call_limit (pool : List ApiKeyEntry) (service : String)
    (now : ℚ) (k : ApiKeyEntry)
    (hacq : ApiKeyPool.acquire pool service now = some k)
    (hwin : windowElapsed k now = false) :
    k.usedCalls < k.callLimit
    ∧ (∀ j : ApiKeyEntry, windowElapsed j now = true → 0 < j.callLimit →
        ApiKeyPool.acquire [j] j.service now = some j
        ∧ (ApiKeyPool.recordUsage j now).usedCalls = 1
        ∧ (ApiKeyPool.recordUsage j now).windowStartedAt = now) := by
  constructor
  · have helig := List.find?_some hacq
    unfold eligible at helig
    rw [decide_eq_true_eq] at helig
    unfold effectiveUsed at helig
    rw [hwin] at helig
    simpa using helig
  · intro j hj hcl
    refine ⟨?_, ?_, ?_⟩
    · unfold ApiKeyPool.acquire
      simp [List.find?, eligible, effectiveUsed, hj, hcl]
    · unfold ApiKeyPool.recordUsage
      rw [if_pos hj]
    · unfold ApiKeyPool.recordUsage
      rw [if_pos hj]

def c4k : ApiKeyEntry := ⟨"classify", "key-1", 5, 60, 2, 0⟩

theorem acquire_respects_call_limit_witness :
    c4k.usedCalls < c4k.callLimit
    ∧ (∀ j : ApiKeyEntry, windowElapsed j 10 = true → 0 < j.callLimit →
        ApiKeyPool.acquire [j] j.service 10 = some j
        ∧ (ApiKeyPool.recordUsage j 10).usedCalls = 1
        ∧ (ApiKeyPool.recordUsage j 10).windowStartedAt = 10) :=
  acquire_respects_call_limit [c4k] "classify" 10 c4k
    (by norm_num [ApiKeyPool.acquire, List.find?, eligible, effectiveUsed,
      windowElapsed, c4k])
    (by norm_num [windowElapsed, c4k])

/-- The user-visible effects of the upload components' response handler: an
error toast, a duplicate dialog (confidence, id, reason), the response stored
under the successData key, and the navigation target. -/
structure SubmitEffects where
  reportedError : Option String
  dupeDialog : Option (ℚ × Option Nat × Option String)
  storedSuccessData : Option ClassificationResult
  navigatedTo : Option String
deriving DecidableEq

/-- The response branch logic of EmlCard.submitFiles and
EmailPdfCard.submitFiles: report the error when response.data.error is
non-null; otherwise open the duplicate dialog when is_duplicate holds with
duplicate_confidence strictly above 0.8; otherwise store the response under
the successData key and navigate to /classify/success. -/
def handleClassifyResponse (r : ClassificationResult) : SubmitEffects :=
  if r.error ≠ none then
    ⟨r.error, none, none, none⟩
  else if r.is_duplicate && decide ((4 : ℚ)/5 < r.duplicate_confidence) then
    ⟨none, some (r.duplicate_confidence, r.duplicate_id, r.duplicate_reason),
      none, none⟩
  else
    ⟨none, none, some r, some "/classify/success"⟩

/-- C10: for every classification response received by the upload components,
exactly one of three mutually exclusive outcomes occurs, checked in this
order: a non-null error is reported and the user is not navigated; otherwise
a duplicate with confidence strictly above 0.8 opens the duplicate dialog
showing duplicate_confidence, duplicate_id and duplicate_reason and the user
is not navigated; otherwise the response is stored under the successData key
and the router navigates to /classify/success. -/
theorem upload_response_trichotomy (r : ClassificationResult) :
    (r.error ≠ none →
      handleClassifyResponse r = ⟨r.error, none, none, none⟩)
    ∧ (r.error = none → r.is_duplicate = true → 4/5 < r.duplicate_confidence →
      handleClassifyResponse r
        = ⟨none, some (r.duplicate_confidence, r.duplicate_id, r.duplicate_reason),
            none, none⟩)
    ∧ (r.error = none → ¬(r.is_duplicate = true ∧ 4/5 < r.duplicate_confidence) →
      handleClassifyResponse r = ⟨none, none, some r, some "/classify/success"⟩) := by
  refine ⟨?_, ?_, ?_⟩
  · intro h
    unfold handleClassifyResponse
    rw [if_pos h]
  · intro he hd hc
    unfold handleClassifyResponse
    rw [if_neg (by simp [he]), if_pos (by simp [hd, hc])]
  · intro he hnot
    unfold handleClassifyResponse
    rw [if_neg (by simp [he]), if_neg]
    simp only [Bool.and_eq_true, decide_eq_true_eq]
    intro hand
    exact hnot ⟨hand.1, hand.2⟩
